import Mathlib

/-!
Verification development for the Hue Entertainment streaming core of the
emulated-hue bridge (src/emulated_hue/controllers/entertainment.py and the
entertainment-related parts of src/emulated_hue/controllers/config.py).

The byte stream is modelled as List Nat (Python bytes objects; every element
of a real packet is < 256, which the theorems assume where it matters).
Fallible Python code (IndexError on out-of-range subscripts, the explicit
raise in Config.async_get_light_config) is modelled with Except.
Python float division followed by int(...) truncation is modelled by Nat
division: for the operand ranges that occur here (16-bit values divided by
256, sums up to 765 divided by 3) the double-precision result either is
exact (division by a power of two of an integer below 2^53) or truncates to
the same integer, so int(a / b) coincides with Nat division a / b.  The XY
coordinates, which Python keeps as floats in [0, 1], are modelled as exact
rationals.
-/

/-! ### Frame Reader: buffer splitting (entertainment.py, async_run)

Packets are delimited by the literal marker b"HueStream".  The loop does
pkts = buffer.split(b"HueStream"); every piece except the last is
re-prefixed with the marker and processed; the last piece becomes the new
buffer.
-/

/-- ASCII bytes of the start-of-frame marker b"HueStream". -/
def HueStreamMarker : List Nat := [72, 117, 101, 83, 116, 114, 101, 97, 109]

/-- Python bytes.split(sep): scan left to right; whenever sep starts at the
current position, emit the accumulated piece and jump past sep, otherwise
advance one byte.  The extra Nat argument is recursion fuel; every call site
passes the length of the scanned list, which suffices because each step
consumes at least one byte (the separator is never empty here).  The zero
fuel equation is unreachable at those call sites. -/
def splitGo (sep : List Nat) : Nat → List Nat → List Nat → List (List Nat)
  | _, [], acc => [acc.reverse]
  | 0, s, acc => [acc.reverse ++ s]
  | fuel + 1, c :: rest, acc =>
    if sep.isPrefixOf (c :: rest) then
      acc.reverse :: splitGo sep fuel ((c :: rest).drop sep.length) []
    else
      splitGo sep fuel rest (c :: acc)

/-- buffer.split(sep) for byte strings (Python semantics, non-empty sep). -/
def splitOnList (sep s : List Nat) : List (List Nat) :=
  splitGo sep s.length s []

/-- Packet layout constants set in EntertainmentAPI.__init__. -/
def pkt_header_begin_size : Nat := 9

def pkt_header_protocol_size : Nat := 7

def pkt_header_uuid_size : Nat := 36

def pkt_light_data_size : Nat := 9 * 20

def max_pkt_size : Nat :=
  pkt_header_begin_size + pkt_header_protocol_size
    + pkt_header_uuid_size + pkt_light_data_size

/-- The trim step at the top of the read loop:
buffer = buffer[-((max_pkt_size + pkt_header_begin_size) * 2):],
that is, keep only the last (max_pkt_size + 9) * 2 bytes. -/
def trimBuffer (buffer : List Nat) : List Nat :=
  buffer.drop (buffer.length - (max_pkt_size + pkt_header_begin_size) * 2)

/-- pkts = buffer.split(b"HueStream") in async_run. -/
def pktsOf (buffer : List Nat) : List (List Nat) :=
  splitOnList HueStreamMarker buffer

/-- The packets handed to __process_packet in one iteration: every split
piece except the last, re-prefixed with the marker, in arrival order. -/
def processedOf (buffer : List Nat) : List (List Nat) :=
  (pktsOf buffer).dropLast.map fun p => HueStreamMarker ++ p

/-- buffer = pkts[-1]: the retained tail after one split iteration. -/
def newBufferOf (buffer : List Nat) : List Nat :=
  (pktsOf buffer).getLastD []

/-- The read-size update: pkt is the last processed packet, and
if (guess := len(pkt) - len(buffer)) > 0: likely_pktsize = guess.
Python subtraction of lengths is modelled on Int. -/
def newGuessOf (buffer : List Nat) (likely : Nat) : Nat :=
  if 0 < (((processedOf buffer).getLastD []).length : Int)
        - ((newBufferOf buffer).length : Int) then
    ((((processedOf buffer).getLastD []).length : Int)
        - ((newBufferOf buffer).length : Int)).toNat
  else likely

/-- Result of one split iteration of the read loop (lines 115 to 125 of
entertainment.py): the packets processed, the retained buffer, and the
updated read-size estimate. -/
structure IterResult where
  processed : List (List Nat)
  buffer : List Nat
  likely : Nat
  deriving DecidableEq

/-- One split iteration of async_run after a read: split on the marker; if
more than one piece resulted, process all but the last piece (re-prefixed)
and keep the last piece, updating the size estimate; otherwise leave the
buffer and the estimate untouched. -/
def splitIteration (buffer : List Nat) (likely : Nat) : IterResult :=
  if 1 < (pktsOf buffer).length then
    { processed := processedOf buffer
      buffer := newBufferOf buffer
      likely := newGuessOf buffer likely }
  else
    { processed := [], buffer := buffer, likely := likely }

/-- Shape of a buffer holding framed data: b1 ++ marker ++ b2 ++ ... ++
marker ++ tail (the part of such a buffer after its first marker).  Used
only to state hypotheses about buffer contents, not part of the code. -/
def joinTail (sep : List Nat) : List (List Nat) → List Nat → List Nat
  | [], tail => tail
  | b :: bs, tail => b ++ sep ++ joinTail sep bs tail

/-- A separator with no non-trivial border: no proper prefix of it is also
a suffix.  This holds for b"HueStream" and guarantees that no occurrence of
the marker can straddle the boundary between a marker-free piece and a
following marker. -/
def Unbordered (sep : List Nat) : Prop :=
  ∀ k, k < sep.length → 0 < k → sep.take k ≠ sep.drop (sep.length - k)

/-! ### Packet Decoder and Channel Dispatcher
(entertainment.py, __process_packet and __async_process_light_packet)
-/

/-- Exceptions that can escape __async_process_light_packet: an IndexError
from subscripting the 9-byte record, or the explicit
Exception("Light ... not found!") raised by Config.async_get_light_config. -/
inductive PyErr where
  | indexError : PyErr
  | lightNotFound : String → PyErr
  deriving DecidableEq

/-- The slice of a light config used by the dispatcher (entity_id). -/
structure LightConf where
  entity_id : String
  deriving DecidableEq

deriving instance DecidableEq for Except

/-- Modelled from the spec: the command-builder state from devices.py,
which is not under src/ (spec section 6: setPower, setRGB, setXY,
setBrightness, setTransitionMs, execute).  Each set_* call is a pure field
update; async_execute returns the finished state as the dispatched
command.  rgb_color holds exactly the triple stored by set_rgb. -/
structure ControlState where
  power : Option Bool
  rgb : Option (Nat × Nat × Nat)
  xy : Option (ℚ × ℚ)
  brightness : Option Nat
  transitionMs : Option Nat
  deriving DecidableEq

/-- The fresh builder state returned by device.new_control_state(). -/
def newControlState : ControlState :=
  { power := none, rgb := none, xy := none, brightness := none, transitionMs := none }

def COLOR_TYPE_RGB : String := "RGB"

def COLOR_TYPE_XY_BR : String := "XY Brightness"

/-- Python subscripting light_data[i]: IndexError when out of range. -/
def pyIndex (l : List Nat) (i : Nat) : Except PyErr Nat :=
  if h : i < l.length then .ok l[i] else .error .indexError

/-- Config.async_get_light_config (config.py lines 250 to 255): look the
light id up in persistent storage; a missing (falsy) entry raises
Exception("Light ... not found!").  The external storage is abstracted as a
map from light id to config. -/
def asyncGetLightConfig (registry : String → Option LightConf) (lightId : String) :
    Except PyErr LightConf :=
  match registry lightId with
  | some conf => .ok conf
  | none => .error (.lightNotFound lightId)

/-- sum(call.control_state.rgb_color): sum of the triple stored by set_rgb.
The none branch is unreachable at the single call site (set_rgb has just
run). -/
def sumRGB (c : ControlState) : Nat :=
  match c.rgb with
  | some (r, g, b) => r + g + b
  | none => 0

/-- EntertainmentAPI.__async_process_light_packet (entertainment.py lines
161 to 200): decode the 16-bit big-endian light id from bytes 1 and 2,
resolve it through the bridge config (which raises when unknown), then
build the control state: power on; in RGB mode the three 16-bit components
divided by 256 and a brightness that averages the stored triple; in XY mode
the two 16-bit coordinates divided by 65535 and a brightness from bytes 7
and 8 divided by 256; finally a zero transition.  Each int(... / ...) is
Nat division as explained in the file header. -/
def processLightPacket (registry : String → Option LightConf)
    (lightData : List Nat) (colorSpace : String) :
    Except PyErr ControlState := do
  let b1 ← pyIndex lightData 1
  let b2 ← pyIndex lightData 2
  let lightId := toString ((b1 <<< 8) ||| b2)
  let lightConf ← asyncGetLightConfig registry lightId
  let _entityId := lightConf.entity_id
  let call : ControlState := { newControlState with power := some true }
  if colorSpace = COLOR_TYPE_RGB then
    let b3 ← pyIndex lightData 3
    let b4 ← pyIndex lightData 4
    let b5 ← pyIndex lightData 5
    let b6 ← pyIndex lightData 6
    let b7 ← pyIndex lightData 7
    let b8 ← pyIndex lightData 8
    let red := (b3 * 256 + b4) / 256
    let green := (b5 * 256 + b6) / 256
    let blue := (b7 * 256 + b8) / 256
    let call := { call with rgb := some (red, green, blue) }
    let call := { call with brightness := some (sumRGB call / 3) }
    let call := { call with transitionMs := some 0 }
    return call
  else
    let b3 ← pyIndex lightData 3
    let b4 ← pyIndex lightData 4
    let b5 ← pyIndex lightData 5
    let b6 ← pyIndex lightData 6
    let x : ℚ := ((b3 * 256 + b4 : Nat) : ℚ) / 65535
    let y : ℚ := ((b5 * 256 + b6 : Nat) : ℚ) / 65535
    let call := { call with xy := some (x, y) }
    let b7 ← pyIndex lightData 7
    let b8 ← pyIndex lightData 8
    let call := { call with brightness := some ((b7 * 256 + b8) / 256) }
    let call := { call with transitionMs := some 0 }
    return call

/-- Python for i in range(0, len(source), size): yield source[i : i + size].
Note the final chunk is yielded even when it is shorter than size. -/
def chunked (size : Nat) (source : List Nat) : List (List Nat) :=
  (List.range' 0 ((source.length + size - 1) / size) size).map
    fun i => (source.drop i).take size

/-- color_space = RGB if packet[14] == 0 else XY Brightness.  The subscript
is guarded by the minimum-length check in __process_packet, so getD is
exact there. -/
def colorSpaceOf (packet : List Nat) : String :=
  if packet.getD 14 0 = 0 then COLOR_TYPE_RGB else COLOR_TYPE_XY_BR

/-- lights_data = packet[16:] if packet[9] == 1 else packet[52:]. -/
def lightsDataOf (packet : List Nat) : List Nat :=
  if packet.getD 9 0 = 1 then packet.drop 16 else packet.drop 52

/-- EntertainmentAPI.__process_packet (entertainment.py lines 143 to 159):
drop any packet shorter than the 9-byte marker plus the 7-byte minimal
header; otherwise read version and color space, select the payload offset
(16 for version 1, 52 otherwise) and hand every 9-byte chunk of the payload
to __async_process_light_packet.  The returned list holds the outcome of
each per-record coroutine, in record order. -/
def processPacket (registry : String → Option LightConf) (packet : List Nat) :
    List (Except PyErr ControlState) :=
  if packet.length < pkt_header_begin_size + pkt_header_protocol_size then []
  else
    (chunked 9 (lightsDataOf packet)).map fun lightData =>
      processLightPacket registry lightData (colorSpaceOf packet)

/-- The await asyncio.gather(*tasks) at the end of __process_packet: if any
record coroutine raised, the exception propagates to the awaiter (gather
re-raises the first failure; list order stands in for completion order,
which only matters for which of several errors is reported). -/
def firstError : List (Except PyErr ControlState) → Except PyErr Unit
  | [] => .ok ()
  | .ok _ :: rest => firstError rest
  | .error e :: _ => .error e

/-- The device commands that actually run: gather does not cancel sibling
tasks when one of them raises, so every record whose own coroutine
succeeded still executes its command. -/
def executedCommands (rs : List (Except PyErr ControlState)) : List ControlState :=
  rs.filterMap fun r =>
    match r with
    | .ok c => some c
    | .error _ => none

/-- The per-frame part of async_run: frames are awaited strictly in order,
and an exception escaping __process_packet propagates out of async_run,
killing the loop task, so no later frame is processed. -/
def runPackets (registry : String → Option LightConf) :
    List (List Nat) → Except PyErr Unit
  | [] => .ok ()
  | pkt :: rest =>
    match firstError (processPacket registry pkt) with
    | .error e => .error e
    | .ok _ => runPackets registry rest

/-! ### Session Lifecycle (config.py start_entertainment /
entertainment_active, entertainment.py __init__ / start of async_run)
-/

/-- The EntertainmentAPI object held in Config._entertainment_api; the
group and user details it was constructed with, and its interrupted flag. -/
structure ApiHandle where
  groupName : String
  username : String
  interrupted : Bool
  deriving DecidableEq

/-- The observable session state: Config._entertainment_api, the HASS
binary sensor emulated_hue_entertainment_active, and how many OpenSSL
endpoint processes have been spawned (bound to UDP port 2100). -/
structure SessionState where
  entertainmentApi : Option ApiHandle
  sensorOn : Bool
  endpointsSpawned : Nat
  deriving DecidableEq

/-- Config.entertainment_active: self._entertainment_api is not None. -/
def entertainment_active (s : SessionState) : Bool :=
  s.entertainmentApi.isSome

/-- Config.start_entertainment (config.py lines 453 to 458): when no api
object exists, construct one (whose __init__ schedules async_run as a
background task) and return True; otherwise return False and change
nothing. -/
def start_entertainment (s : SessionState) (group user : String) :
    Bool × SessionState :=
  match s.entertainmentApi with
  | some _ => (false, s)
  | none =>
    let api : ApiHandle := { groupName := group, username := user, interrupted := false }
    (true, { s with entertainmentApi := some api })

/-- The start of the scheduled async_run task (entertainment.py lines 70
to 99): it first sets the active sensor to on, then attempts
asyncio.create_subprocess_exec for the OpenSSL endpoint.  spawnOk abstracts
whether that external call succeeds.  On failure the exception escapes the
task; no cleanup code runs, so the state set so far remains. -/
def runTaskStartup (s : SessionState) (spawnOk : Bool) : SessionState :=
  let s1 := { s with sensorOn := true }
  if spawnOk then { s1 with endpointsSpawned := s1.endpointsSpawned + 1 } else s1

/-- start_entertainment followed by the scheduled task reaching its spawn
attempt; the Bool result is what the caller of start_entertainment already
received (the task only runs when a new api object was constructed). -/
def startAndRun (s : SessionState) (group user : String) (spawnOk : Bool) :
    Bool × SessionState :=
  let r := start_entertainment s group user
  if r.1 then (r.1, runTaskStartup r.2 spawnOk) else r

/-! ### Concrete inputs for counterexamples and witnesses -/

/-- A bridge light registry resolving light ids 0 to 3 (and nothing else). -/
def exRegistry : String → Option LightConf := fun s =>
  if s = "0" then some { entity_id := "light.zero" }
  else if s = "1" then some { entity_id := "light.one" }
  else if s = "2" then some { entity_id := "light.two" }
  else if s = "3" then some { entity_id := "light.three" }
  else none

/-- Version-1 RGB frame with four records for channel ids 1, 2, 3 and 4;
id 4 does not resolve in exRegistry. -/
def exPacketBad : List Nat :=
  HueStreamMarker ++ [1, 0, 0, 0, 0, 0, 0]
    ++ [0, 0, 1, 0, 10, 0, 20, 0, 30]
    ++ [0, 0, 2, 0, 0, 0, 0, 0, 0]
    ++ [0, 0, 3, 255, 255, 255, 255, 255, 255]
    ++ [0, 0, 4, 1, 2, 3, 4, 5, 6]

/-- Version-1 RGB frame with a single record for channel id 1. -/
def exPacketGood : List Nat :=
  HueStreamMarker ++ [1, 0, 0, 0, 0, 0, 0] ++ [0, 0, 1, 0, 10, 0, 20, 0, 30]

/-- Version-1 RGB frame whose payload is 20 bytes: two full records
(channels 1 and 2) followed by a 2-byte trailing fragment. -/
def exPacketFrag : List Nat :=
  HueStreamMarker ++ [1, 0, 0, 0, 0, 0, 0]
    ++ [0, 0, 1, 0, 10, 0, 20, 0, 30]
    ++ [0, 0, 2, 0, 0, 0, 0, 0, 0]
    ++ [0, 0]

/-- A buffer holding one complete 16-byte frame followed by a partial
frame of length 11 (the 9-byte marker plus two payload bytes). -/
def exBuffer : List Nat :=
  HueStreamMarker ++ [1, 0, 0, 0, 0, 0, 0] ++ HueStreamMarker ++ [5, 6]

/-- A minimal version-2 frame: marker plus a 7-byte header with version
byte 2; its payload (from offset 52) is empty. -/
def exPacketV2 : List Nat :=
  HueStreamMarker ++ [2, 0, 0, 0, 0, 0, 0]

/-- The idle session state: no api object, sensor off, nothing spawned. -/
def idleState : SessionState :=
  { entertainmentApi := none, sensorOn := false, endpointsSpawned := 0 }

/-! ### Helper lemmas: Except evaluation -/

@[simp] theorem except_bind_ok_eval {ε α β : Type} (a : α) (f : α → Except ε β) :
    (Except.ok a : Except ε α) >>= f = f a := rfl

@[simp] theorem except_bind_error_eval {ε α β : Type} (e : ε) (f : α → Except ε β) :
    (Except.error e : Except ε α) >>= f = Except.error e := rfl

theorem except_bind_eq_ok {ε α β : Type} {x : Except ε α} {f : α → Except ε β} {b : β}
    (h : x >>= f = .ok b) : ∃ a, x = .ok a ∧ f a = .ok b := by
  cases x with
  | ok a => exact ⟨a, rfl, h⟩
  | error e => simp at h

/-! ### Helper lemmas: buffer splitting -/

theorem marker_ne_nil : HueStreamMarker ≠ [] := by
  simp [HueStreamMarker]

theorem marker_unbordered : Unbordered HueStreamMarker := by
  have h : ∀ k, k < 9 → 0 < k →
      HueStreamMarker.take k ≠ HueStreamMarker.drop (9 - k) := by decide
  intro k hk hk0
  have h9 : HueStreamMarker.length = 9 := rfl
  rw [h9] at hk ⊢
  exact h k hk hk0

theorem splitGo_fuel (sep : List Nat) (hsep : sep ≠ []) :
    ∀ (f₁ f₂ : Nat) (s acc : List Nat),
      s.length ≤ f₁ → s.length ≤ f₂ →
      splitGo sep f₁ s acc = splitGo sep f₂ s acc := by
  intro f₁
  induction f₁ with
  | zero =>
    intro f₂ s acc h₁ _
    have hs : s = [] := by
      cases s with
      | nil => rfl
      | cons c r => simp at h₁
    subst hs
    cases f₂ <;> rfl
  | succ g ih =>
    intro f₂ s acc h₁ h₂
    cases s with
    | nil => cases f₂ <;> rfl
    | cons c r =>
      cases f₂ with
      | zero => simp at h₂
      | succ g₂ =>
        have hsp : 0 < sep.length := List.length_pos.mpr hsep
        simp only [splitGo]
        split
        · have hd : ((c :: r).drop sep.length).length = r.length + 1 - sep.length := by
            simp [List.length_drop]
          rw [ih g₂ _ [] (by simp at h₁; omega) (by simp at h₂; omega)]
        · exact ih g₂ r (c :: acc) (by simp at h₁ ⊢; omega) (by simp at h₂ ⊢; omega)

theorem isPrefixOf_append_self (sep rest : List Nat) :
    sep.isPrefixOf (sep ++ rest) = true :=
  List.isPrefixOf_iff_prefix.mpr (List.prefix_append sep rest)

theorem splitGo_marker (sep rest acc : List Nat) (hsep : sep ≠ []) (f : Nat)
    (hf : rest.length ≤ f) :
    splitGo sep (f + sep.length) (sep ++ rest) acc
      = acc.reverse :: splitGo sep f rest [] := by
  obtain ⟨c, sep', rfl⟩ : ∃ c sep', sep = c :: sep' := by
    cases sep with
    | nil => exact absurd rfl hsep
    | cons c sep' => exact ⟨c, sep', rfl⟩
  show splitGo (c :: sep') (f + sep'.length + 1) (c :: (sep' ++ rest)) acc = _
  simp only [splitGo]
  rw [if_pos]
  · have hd : (c :: (sep' ++ rest)).drop (c :: sep').length = rest := by
      show (c :: sep' ++ rest).drop (c :: sep').length = rest
      exact List.drop_left _ _
    rw [hd, splitGo_fuel (c :: sep') hsep (f + sep'.length) f rest [] (by omega) hf]
  · show (c :: sep').isPrefixOf (c :: sep' ++ rest) = true
    exact isPrefixOf_append_self _ _

theorem sep_not_prefix_mid (sep body rest : List Nat) (hub : Unbordered sep)
    (hbody : ¬ sep <:+: body) (hne : body ≠ []) :
    sep.isPrefixOf (body ++ (sep ++ rest)) = false := by
  cases hb : sep.isPrefixOf (body ++ (sep ++ rest)) with
  | false => rfl
  | true =>
    exfalso
    have hp : sep <+: body ++ (sep ++ rest) := List.isPrefixOf_iff_prefix.mp hb
    rcases le_or_lt sep.length body.length with hle | hlt
    · have hbpre : body <+: body ++ (sep ++ rest) := List.prefix_append _ _
      have : sep <+: body := List.prefix_of_prefix_length_le hp hbpre hle
      exact hbody this.isInfix
    · have hbl : 0 < body.length := List.length_pos.mpr hne
      obtain ⟨t, ht⟩ := hp
      have htake : (body ++ (sep ++ rest)).take sep.length = sep := by
        rw [← ht, List.take_left]
      have htake2 : (body ++ (sep ++ rest)).take sep.length
          = body ++ sep.take (sep.length - body.length) := by
        rw [List.take_append_eq_append_take, List.take_of_length_le hlt.le,
          List.take_append_of_le_length (by omega)]
      have hsep_eq : sep = body ++ sep.take (sep.length - body.length) :=
        htake.symm.trans htake2
      have hdrop : (body ++ sep.take (sep.length - body.length)).drop body.length
          = sep.take (sep.length - body.length) := List.drop_left _ _
      rw [← hsep_eq] at hdrop
      have hcon := hub (sep.length - body.length) (by omega) (by omega)
      rw [show sep.length - (sep.length - body.length) = body.length by omega] at hcon
      exact hcon hdrop.symm

theorem splitGo_scan (sep : List Nat) (hub : Unbordered sep) :
    ∀ (body rest acc : List Nat) (f : Nat), ¬ sep <:+: body →
      splitGo sep (f + body.length) (body ++ (sep ++ rest)) acc
        = splitGo sep f (sep ++ rest) (body.reverse ++ acc) := by
  intro body
  induction body with
  | nil => intro rest acc f _; simp
  | cons c b ih =>
    intro rest acc f hbody
    have hni : ¬ sep <:+: b := fun h => hbody (List.infix_cons h)
    have hpf : sep.isPrefixOf ((c :: b) ++ (sep ++ rest)) = false :=
      sep_not_prefix_mid sep (c :: b) rest hub hbody (by simp)
    show splitGo sep (f + b.length + 1) (c :: (b ++ (sep ++ rest))) acc = _
    simp only [splitGo]
    rw [if_neg (by rw [show c :: (b ++ (sep ++ rest)) = (c :: b) ++ (sep ++ rest) from rfl, hpf]; simp)]
    rw [ih rest (c :: acc) f hni]
    simp

theorem splitGo_no_sep (sep : List Nat) :
    ∀ (p acc : List Nat) (f : Nat), ¬ sep <:+: p →
      splitGo sep f p acc = [acc.reverse ++ p] := by
  intro p
  induction p with
  | nil => intro acc f _; cases f <;> simp [splitGo]
  | cons c r ih =>
    intro acc f hp
    cases f with
    | zero => simp [splitGo]
    | succ g =>
      have hpf : sep.isPrefixOf (c :: r) = false := by
        cases hb : sep.isPrefixOf (c :: r) with
        | false => rfl
        | true => exact absurd (List.isPrefixOf_iff_prefix.mp hb).isInfix hp
      simp only [splitGo]
      rw [if_neg (by rw [hpf]; simp)]
      rw [ih (c :: acc) g (fun h => hp (List.infix_cons h))]
      simp

theorem splitGo_joinTail (sep : List Nat) (hsep : sep ≠ []) (hub : Unbordered sep) :
    ∀ (bodies : List (List Nat)) (tail : List Nat) (f : Nat),
      (∀ b ∈ bodies, ¬ sep <:+: b) → ¬ sep <:+: tail →
      (joinTail sep bodies tail).length ≤ f →
      splitGo sep f (joinTail sep bodies tail) [] = bodies ++ [tail] := by
  intro bodies
  induction bodies with
  | nil => intro tail f _ ht _; simpa using splitGo_no_sep sep tail [] f ht
  | cons b bs ih =>
    intro tail f hb ht hf
    have hlen : (joinTail sep (b :: bs) tail).length
        = b.length + (sep.length + (joinTail sep bs tail).length) := by
      simp [joinTail, List.length_append]
    rw [hlen] at hf
    obtain ⟨f', rfl⟩ : ∃ f', f = f' + b.length := ⟨f - b.length, by omega⟩
    have hJ : joinTail sep (b :: bs) tail = b ++ (sep ++ joinTail sep bs tail) := by
      simp [joinTail, List.append_assoc]
    rw [hJ, splitGo_scan sep hub b (joinTail sep bs tail) [] f'
      (hb b (List.mem_cons_self b bs))]
    obtain ⟨f'', rfl⟩ : ∃ f'', f' = f'' + sep.length := ⟨f' - sep.length, by omega⟩
    rw [splitGo_marker sep (joinTail sep bs tail) (b.reverse ++ []) hsep f'' (by omega)]
    rw [ih tail f'' (fun x hx => hb x (List.mem_cons_of_mem b hx)) ht (by omega)]
    simp

theorem splitOnList_frames (bodies : List (List Nat)) (tail : List Nat)
    (hb : ∀ b ∈ bodies, ¬ HueStreamMarker <:+: b)
    (ht : ¬ HueStreamMarker <:+: tail) :
    splitOnList HueStreamMarker (HueStreamMarker ++ joinTail HueStreamMarker bodies tail)
      = [] :: (bodies ++ [tail]) := by
  unfold splitOnList
  have hlen : (HueStreamMarker ++ joinTail HueStreamMarker bodies tail).length
      = (joinTail HueStreamMarker bodies tail).length + HueStreamMarker.length := by
    simp [List.length_append]; omega
  rw [hlen, splitGo_marker _ _ _ marker_ne_nil _ le_rfl,
    splitGo_joinTail _ marker_ne_nil marker_unbordered bodies tail _ hb ht le_rfl]
  simp

/-! ### Helper lemmas: chunking and the record decoder -/

theorem chunked9_nil : chunked 9 [] = [] := rfl

theorem map_range'_shift {α : Type} (k s step : Nat) (f : Nat → α) :
    List.map f (List.range' s k step)
      = List.map (fun i => f (s + i)) (List.range' 0 k step) := by
  calc List.map f (List.range' s k step)
      = List.map f (List.range' (s + 0) k step) := by rw [Nat.add_zero]
    _ = List.map f (List.map (fun x => s + x) (List.range' 0 k step)) := by
        rw [List.map_add_range']
    _ = List.map (fun i => f (s + i)) (List.range' 0 k step) := by
        rw [List.map_map]
        rfl

theorem chunked9_cons (l : List Nat) (h : l ≠ []) :
    chunked 9 l = l.take 9 :: chunked 9 (l.drop 9) := by
  have h0 : 0 < l.length := List.length_pos.mpr h
  unfold chunked
  have hk : (l.length + 9 - 1) / 9 = (((l.drop 9).length + 9 - 1) / 9) + 1 := by
    simp only [List.length_drop]
    omega
  rw [hk, List.range'_succ, List.map_cons, Nat.zero_add, map_range'_shift]
  congr 1
  apply List.map_congr_left
  intro i _
  simp [List.drop_drop]

theorem chunked9_length (l : List Nat) :
    (chunked 9 l).length = (l.length + 8) / 9 := by
  simp only [chunked, List.length_map, List.length_range']
  omega

theorem getLast?_cons_of_ne {α : Type} (a : α) (l : List α) (h : l ≠ []) :
    (a :: l).getLast? = l.getLast? := by
  cases l with
  | nil => exact absurd rfl h
  | cons b t => exact List.getLast?_cons_cons

theorem chunked9_last_frag (N : Nat) :
    ∀ (l : List Nat), l.length ≤ N → l.length % 9 ≠ 0 →
      ∃ frag, (chunked 9 l).getLast? = some frag ∧ frag.length = l.length % 9 := by
  induction N with
  | zero =>
    intro l hl h9
    exact absurd (by omega : l.length % 9 = 0) h9
  | succ N ih =>
    intro l hl h9
    have hne : l ≠ [] := by
      intro h
      subst h
      simp at h9
    rw [chunked9_cons l hne]
    by_cases hlt : l.length < 9
    · have hdrop : l.drop 9 = [] := List.drop_eq_nil_of_le (by omega)
      rw [hdrop, chunked9_nil]
      refine ⟨l.take 9, rfl, ?_⟩
      rw [List.take_of_length_le (by omega)]
      omega
    · obtain ⟨frag, hf, hflen⟩ := ih (l.drop 9)
        (by simp only [List.length_drop]; omega)
        (by simp only [List.length_drop]; omega)
      rw [getLast?_cons_of_ne _ _ (by intro h0; rw [h0] at hf; simp at hf)]
      refine ⟨frag, hf, ?_⟩
      simp only [List.length_drop] at hflen
      omega

theorem chunked9_last_frag_of_mod (l : List Nat) (h9 : l.length % 9 ≠ 0) :
    ∃ frag, (chunked 9 l).getLast? = some frag ∧ frag.length = l.length % 9 :=
  chunked9_last_frag l.length l le_rfl h9

theorem processLight_short (registry : String → Option LightConf)
    (lightData : List Nat) (colorSpace : String) (h : lightData.length < 9) :
    ∃ e, processLightPacket registry lightData colorSpace = .error e := by
  cases hres : processLightPacket registry lightData colorSpace with
  | error e => exact ⟨e, rfl⟩
  | ok c =>
    exfalso
    unfold processLightPacket at hres
    obtain ⟨b1, hb1, hres⟩ := except_bind_eq_ok hres
    obtain ⟨b2, hb2, hres⟩ := except_bind_eq_ok hres
    obtain ⟨conf, hconf, hres⟩ := except_bind_eq_ok hres
    split at hres
    · obtain ⟨b3, hb3, hres⟩ := except_bind_eq_ok hres
      obtain ⟨b4, hb4, hres⟩ := except_bind_eq_ok hres
      obtain ⟨b5, hb5, hres⟩ := except_bind_eq_ok hres
      obtain ⟨b6, hb6, hres⟩ := except_bind_eq_ok hres
      obtain ⟨b7, hb7, hres⟩ := except_bind_eq_ok hres
      obtain ⟨b8, hb8, hres⟩ := except_bind_eq_ok hres
      simp [pyIndex, show ¬ (8 < lightData.length) by omega] at hb8
    · obtain ⟨b3, hb3, hres⟩ := except_bind_eq_ok hres
      obtain ⟨b4, hb4, hres⟩ := except_bind_eq_ok hres
      obtain ⟨b5, hb5, hres⟩ := except_bind_eq_ok hres
      obtain ⟨b6, hb6, hres⟩ := except_bind_eq_ok hres
      obtain ⟨b7, hb7, hres⟩ := except_bind_eq_ok hres
      obtain ⟨b8, hb8, hres⟩ := except_bind_eq_ok hres
      simp [pyIndex, show ¬ (8 < lightData.length) by omega] at hb8

theorem processPacket_of_min_length (registry : String → Option LightConf)
    (packet : List Nat) (h : 16 ≤ packet.length) :
    processPacket registry packet
      = (chunked 9 (lightsDataOf packet)).map fun lightData =>
          processLightPacket registry lightData (colorSpaceOf packet) := by
  unfold processPacket
  rw [if_neg]
  simp only [pkt_header_begin_size, pkt_header_protocol_size]
  omega

/-! ### Claim theorems -/

/-- C6: in every iteration of the read loop, immediately after the trim
step the retained buffer length is at most 2 * (max_frame_size +
marker_length) bytes, with max_frame_size = 9 + 7 + 36 + 9 * 20 = 232 and
marker_length = 9, that is at most 482 bytes, and trimming keeps only the
tail of the buffer. -/
theorem c6_trim_bound (buffer : List Nat) :
    (trimBuffer buffer).length ≤ 2 * (max_pkt_size + pkt_header_begin_size) ∧
    max_pkt_size = 232 ∧
    pkt_header_begin_size = 9 ∧
    2 * (max_pkt_size + pkt_header_begin_size) = 482 ∧
    (trimBuffer buffer).length ≤ 482 ∧
    trimBuffer buffer <:+ buffer := by
  have hc : (max_pkt_size + pkt_header_begin_size) * 2 = 482 := rfl
  have hlen : (trimBuffer buffer).length = buffer.length - (buffer.length - 482) := by
    unfold trimBuffer
    rw [hc, List.length_drop]
  refine ⟨?_, rfl, rfl, rfl, ?_, List.drop_suffix _ _⟩
  · rw [hlen, show 2 * (max_pkt_size + pkt_header_begin_size) = 482 from rfl]
    omega
  · rw [hlen]
    omega

/-- C8: every frame shorter than 16 bytes (9-byte marker plus 7-byte
minimal header) is dropped silently before the version byte or color-space
byte is read: the decoder returns without dispatching any channel record,
no channel state is advanced, and the read loop continues with the
remaining frames. -/
theorem c8_short_frame_dropped (registry : String → Option LightConf)
    (packet : List Nat) (rest : List (List Nat)) (h : packet.length < 16) :
    processPacket registry packet = [] ∧
    firstError (processPacket registry packet) = .ok () ∧
    executedCommands (processPacket registry packet) = [] ∧
    runPackets registry (packet :: rest) = runPackets registry rest := by
  have hp : processPacket registry packet = [] := by
    unfold processPacket
    rw [if_pos (by simp only [pkt_header_begin_size, pkt_header_protocol_size]; omega)]
  refine ⟨hp, by simp [hp, firstError], by simp [hp, executedCommands], ?_⟩
  simp [runPackets, hp, firstError]

/-- Witness for C8 at the concrete 3-byte frame [0, 1, 2]. -/
theorem c8_short_frame_dropped_witness :
    processPacket exRegistry [0, 1, 2] = [] ∧
    runPackets exRegistry ([0, 1, 2] :: [exPacketGood]) = runPackets exRegistry [exPacketGood] := by
  have h := c8_short_frame_dropped exRegistry [0, 1, 2] [exPacketGood] (by decide)
  exact ⟨h.1, h.2.2.2⟩

/-- C5: after the frame reader processes the complete frames found in one
iteration, if the length of the last processed frame minus the retained
tail length is positive, the next read-size estimate equals exactly that
difference; otherwise the estimate is left unchanged. -/
theorem c5_guess_update (buffer : List Nat) (likely : Nat)
    (h : 1 < (pktsOf buffer).length) (F T : Nat)
    (hF : F = ((splitIteration buffer likely).processed.getLastD []).length)
    (hT : T = (splitIteration buffer likely).buffer.length) :
    (T < F → (splitIteration buffer likely).likely = F - T) ∧
    (F ≤ T → (splitIteration buffer likely).likely = likely) := by
  simp only [splitIteration, if_pos h] at hF hT ⊢
  subst hF
  subst hT
  unfold newGuessOf
  constructor
  · intro hTF
    rw [if_pos (by omega)]
    omega
  · intro hFT
    rw [if_neg (by omega)]

/-- Witness for C5 at a concrete buffer: the last processed frame has 16
bytes, the retained tail 2 bytes, so the estimate becomes 14. -/
theorem c5_guess_update_witness :
    (splitIteration exBuffer 99).likely = 14 := by
  have h := c5_guess_update exBuffer 99 (by decide) 16 2 (by decide) (by decide)
  have h2 := h.1 (by decide)
  simpa using h2

/-- C4 counterexample: for the buffer consisting of one complete 16-byte
frame followed by a partial frame of length L = 11 (marker plus two bytes),
the split iteration retains [5, 6] (2 bytes), not the 11 trailing bytes
that the claim predicts: the partial frame loses its 9-byte marker. -/
theorem c4_counterexample :
    (splitIteration exBuffer 16).buffer = [5, 6] ∧
    (splitIteration exBuffer 16).buffer ≠ exBuffer.drop (exBuffer.length - 11) ∧
    (splitIteration exBuffer 16).processed
      = [HueStreamMarker, HueStreamMarker ++ [1, 0, 0, 0, 0, 0, 0]] := by decide

/-- C4 (amended): for every buffer containing N well-formed consecutive
frames (marker plus marker-free body) followed by a partial frame that
contains at least its complete 9-byte marker (partial length L, marker-free
remainder p of length L - 9), one split iteration processes, in arrival
order, one bare 9-byte marker piece (which the decoder drops) followed by
exactly the N complete frames, each re-prefixed with the marker, and
retains exactly the last L - 9 bytes (the partial frame without its
marker) as the new buffer. -/
theorem c4_frame_reader_split (bodies : List (List Nat)) (p : List Nat) (likely : Nat)
    (hb : ∀ b ∈ bodies, ¬ HueStreamMarker <:+: b)
    (hp : ¬ HueStreamMarker <:+: p) :
    (splitIteration (HueStreamMarker ++ joinTail HueStreamMarker bodies p) likely).processed
      = HueStreamMarker :: bodies.map (fun b => HueStreamMarker ++ b) ∧
    (splitIteration (HueStreamMarker ++ joinTail HueStreamMarker bodies p) likely).buffer = p ∧
    (∀ registry : String → Option LightConf, processPacket registry HueStreamMarker = []) := by
  have hpkts : pktsOf (HueStreamMarker ++ joinTail HueStreamMarker bodies p)
      = [] :: (bodies ++ [p]) := splitOnList_frames bodies p hb hp
  have hlen : 1 < (pktsOf (HueStreamMarker ++ joinTail HueStreamMarker bodies p)).length := by
    rw [hpkts]
    simp
  refine ⟨?_, ?_, ?_⟩
  · simp only [splitIteration, if_pos hlen, processedOf, hpkts]
    rw [show ([] : List Nat) :: (bodies ++ [p]) = (([] : List Nat) :: bodies) ++ [p] from rfl,
      List.dropLast_concat]
    simp
  · unfold splitIteration
    rw [if_pos hlen]
    simp only [newBufferOf, hpkts]
    rw [show ([] : List Nat) :: (bodies ++ [p]) = (([] : List Nat) :: bodies) ++ [p] from rfl,
      List.getLastD_concat]
  · intro registry
    rfl

/-- Witness for the amended C4 at one 16-byte frame plus the partial frame
marker ++ [5, 6]. -/
theorem c4_frame_reader_split_witness :
    (splitIteration exBuffer 16).processed
      = HueStreamMarker :: [HueStreamMarker ++ [1, 0, 0, 0, 0, 0, 0]] ∧
    (splitIteration exBuffer 16).buffer = [5, 6] := by
  have he : exBuffer
      = HueStreamMarker ++ joinTail HueStreamMarker [[1, 0, 0, 0, 0, 0, 0]] [5, 6] := by decide
  have h := c4_frame_reader_split [[1, 0, 0, 0, 0, 0, 0]] [5, 6] 16 (by decide) (by decide)
  rw [he]
  exact ⟨by simpa using h.1, h.2.1⟩

/-- C2 counterexample: for a version-1 frame whose payload is 20 bytes
(two full records for resolvable channels 1 and 2 plus a 2-byte trailing
fragment), the decoder dispatches 3 records, not floor(20 / 9) = 2: the
trailing fragment is not discarded but handed to the record coroutine,
whose subscript light_data[2] raises IndexError, so the frame does not
finish without error. -/
theorem c2_counterexample :
    (lightsDataOf exPacketFrag).length = 20 ∧
    (processPacket exRegistry exPacketFrag).length = 3 ∧
    (processPacket exRegistry exPacketFrag).getLast? = some (.error .indexError) ∧
    firstError (processPacket exRegistry exPacketFrag) ≠ .ok () := by decide

/-- C2 (amended): for every frame of at least 16 bytes whose payload
length is not a multiple of 9, the decoder dispatches
floor(payload_length / 9) + 1 records: the trailing fragment of fewer than
9 bytes is dispatched as well, and its record processing always fails with
an error (it never produces a command). -/
theorem c2_trailing_fragment (registry : String → Option LightConf)
    (packet : List Nat) (h16 : 16 ≤ packet.length)
    (hfrag : (lightsDataOf packet).length % 9 ≠ 0) :
    (processPacket registry packet).length = (lightsDataOf packet).length / 9 + 1 ∧
    ∃ e, (processPacket registry packet).getLast? = some (Except.error e) := by
  rw [processPacket_of_min_length registry packet h16]
  constructor
  · rw [List.length_map, chunked9_length]
    omega
  · obtain ⟨frag, hf, hflen⟩ := chunked9_last_frag_of_mod (lightsDataOf packet) hfrag
    rw [List.getLast?_map, hf]
    obtain ⟨e, he⟩ := processLight_short registry frag (colorSpaceOf packet) (by omega)
    exact ⟨e, by simp [he]⟩

/-- Witness for the amended C2 at the concrete 20-byte payload frame. -/
theorem c2_trailing_fragment_witness :
    (processPacket exRegistry exPacketFrag).length = 3 := by
  have h := c2_trailing_fragment exRegistry exPacketFrag (by decide) (by decide)
  rw [h.1]
  decide

/-- C1 counterexample: in a version-1 frame with four records, three for
resolvable channels 1, 2, 3 and one for the unresolvable channel 4, the
three sibling commands are still executed, but the frame processing raises
Exception("Light 4 not found!") instead of completing, and the read loop
terminates: a following well-formed frame is never reached, although that
frame on its own would process cleanly. -/
theorem c1_counterexample :
    firstError (processPacket exRegistry exPacketBad) = .error (.lightNotFound "4") ∧
    runPackets exRegistry [exPacketBad, exPacketGood] = .error (.lightNotFound "4") ∧
    (executedCommands (processPacket exRegistry exPacketBad)).length = 3 ∧
    firstError (processPacket exRegistry exPacketGood) = .ok () := by decide

/-- C1 (amended): whenever some record of a frame raises (in particular a
channel id that does not resolve through the registry), the exception
propagates out of the frame processing and terminates the read loop, so no
later frame is processed; nothing catches or logs it.  The sibling records
of the same frame are nevertheless still processed independently, and
every record whose own coroutine succeeded still executes its command
(gather does not cancel sibling tasks). -/
theorem c1_unresolved_channel (registry : String → Option LightConf)
    (packet : List Nat) (e : PyErr)
    (herr : firstError (processPacket registry packet) = .error e) :
    (∀ rest, runPackets registry (packet :: rest) = .error e) ∧
    (∀ r ∈ processPacket registry packet, ∀ c : ControlState, r = .ok c →
      c ∈ executedCommands (processPacket registry packet)) := by
  constructor
  · intro rest
    simp [runPackets, herr]
  · intro r hr c hc
    subst hc
    exact List.mem_filterMap.mpr ⟨.ok c, hr, rfl⟩

/-- Witness for the amended C1 at the concrete four-record frame. -/
theorem c1_unresolved_channel_witness :
    runPackets exRegistry [exPacketBad] = .error (.lightNotFound "4") := by
  have h := c1_unresolved_channel exRegistry exPacketBad (.lightNotFound "4") (by decide)
  exact h.1 []

/-- C3 counterexample: starting from the idle state with a failing
subprocess spawn, start_entertainment has already returned True (not false
or an error), entertainment_active is true, and the active sensor has been
turned on and stays on; no endpoint was bound and no cleanup runs. -/
theorem c3_counterexample :
    (startAndRun idleState "group" "user" false).1 = true ∧
    entertainment_active (startAndRun idleState "group" "user" false).2 = true ∧
    (startAndRun idleState "group" "user" false).2.sensorOn = true ∧
    (startAndRun idleState "group" "user" false).2.endpointsSpawned = 0 := by decide

/-- C3 (amended): if the underlying secure-channel process cannot be
started, the caller has nevertheless already received True from
start_entertainment (the api object is constructed and the run task
scheduled before any spawn attempt), the session is observably active
(entertainment_active is true), the active sensor has been set on before
the spawn attempt and is left on, and this partial state remains: only the
background read task dies, no endpoint is bound and no cleanup runs. -/
theorem c3_start_failure (s : SessionState) (g u : String)
    (h : s.entertainmentApi = none) :
    (startAndRun s g u false).1 = true ∧
    entertainment_active (startAndRun s g u false).2 = true ∧
    (startAndRun s g u false).2.sensorOn = true ∧
    (startAndRun s g u false).2.endpointsSpawned = s.endpointsSpawned := by
  simp [startAndRun, start_entertainment, h, runTaskStartup, entertainment_active]

/-- Witness for the amended C3 at the idle state. -/
theorem c3_start_failure_witness :
    (startAndRun idleState "grp" "usr" false).1 = true ∧
    entertainment_active (startAndRun idleState "grp" "usr" false).2 = true := by
  have h := c3_start_failure idleState "grp" "usr" (by decide)
  exact ⟨h.1, h.2.1⟩

/-- C9: if a session is already active (a prior start succeeded and no
stop intervened), a second start_entertainment call returns false, changes
nothing (in particular it constructs no second api object and spawns no
second endpoint), and the session stays the one active session. -/
theorem c9_second_start (s s1 : SessionState) (g u g2 u2 : String) (ok1 ok2 : Bool)
    (h1 : (startAndRun s g u ok1).1 = true)
    (hs1 : s1 = (startAndRun s g u ok1).2) :
    (startAndRun s1 g2 u2 ok2).1 = false ∧
    (startAndRun s1 g2 u2 ok2).2 = s1 ∧
    entertainment_active s1 = true ∧
    (startAndRun s1 g2 u2 ok2).2.endpointsSpawned = s1.endpointsSpawned := by
  cases hapi : s.entertainmentApi with
  | some a =>
    simp [startAndRun, start_entertainment, hapi] at h1
  | none =>
    have ha : s1.entertainmentApi
        = some { groupName := g, username := u, interrupted := false } := by
      subst hs1
      cases ok1 <;> simp [startAndRun, start_entertainment, hapi, runTaskStartup]
    refine ⟨?_, ?_, ?_, ?_⟩ <;>
      simp [startAndRun, start_entertainment, ha, entertainment_active]

/-- Witness for C9: two consecutive starts from the idle state; the second
returns false and leaves the state unchanged. -/
theorem c9_second_start_witness :
    (startAndRun (startAndRun idleState "g" "u" true).2 "g2" "u2" true).1 = false ∧
    (startAndRun (startAndRun idleState "g" "u" true).2 "g2" "u2" true).2
      = (startAndRun idleState "g" "u" true).2 := by
  have h := c9_second_start idleState ((startAndRun idleState "g" "u" true).2)
    "g" "u" "g2" "u2" true true (by decide) rfl
  exact ⟨h.1, h.2.1⟩

/-- C10: for every frame accepted by the decoder the payload offset is
determined solely by whether the version byte equals 1: changing a non-1
version byte to any other non-1 value (0, 3, 77, 255, ...) does not change
the dispatch at all, every non-1 version is decoded with the version-2
layout at offset 52, version 1 is decoded at offset 16, and no frame is
ever rejected for carrying an unknown protocol version (the full chunked
payload is dispatched either way). -/
theorem c10_version_layout (registry : String → Option LightConf)
    (p : List Nat) (v : Nat) (h16 : 16 ≤ p.length) (hv : p.getD 9 0 ≠ 1) (hv2 : v ≠ 1) :
    processPacket registry (p.set 9 v) = processPacket registry p ∧
    processPacket registry p
      = (chunked 9 (p.drop 52)).map
          (fun lightData => processLightPacket registry lightData (colorSpaceOf p)) ∧
    (∀ r : List Nat, 16 ≤ r.length → r.getD 9 0 = 1 →
      processPacket registry r
        = (chunked 9 (r.drop 16)).map
            (fun lightData => processLightPacket registry lightData (colorSpaceOf r))) := by
  have hld : lightsDataOf p = p.drop 52 := by
    unfold lightsDataOf
    rw [if_neg hv]
  have hq16 : 16 ≤ (p.set 9 v).length := by
    rw [List.length_set]
    exact h16
  have hqv : (p.set 9 v).getD 9 0 = v := by
    rw [List.getD_eq_getElem?_getD, List.getElem?_set_self (by omega)]
    rfl
  have hqld : lightsDataOf (p.set 9 v) = p.drop 52 := by
    unfold lightsDataOf
    rw [hqv, if_neg hv2, List.drop_set]
    rw [if_pos (by omega)]
  have hqcs : colorSpaceOf (p.set 9 v) = colorSpaceOf p := by
    unfold colorSpaceOf
    rw [List.getD_eq_getElem?_getD, List.getElem?_set_ne (by omega),
      ← List.getD_eq_getElem?_getD]
  refine ⟨?_, ?_, ?_⟩
  · rw [processPacket_of_min_length registry _ hq16,
      processPacket_of_min_length registry _ h16, hqld, hld, hqcs]
  · rw [processPacket_of_min_length registry _ h16, hld]
  · intro r hr16 hrv
    have hrld : lightsDataOf r = r.drop 16 := by
      unfold lightsDataOf
      rw [hrv]
      rfl
    rw [processPacket_of_min_length registry _ hr16, hrld]

/-- Witness for C10: rewriting the version byte of a version-2 frame to 77
leaves the dispatch unchanged. -/
theorem c10_version_layout_witness :
    processPacket exRegistry (exPacketV2.set 9 77) = processPacket exRegistry exPacketV2 := by
  have h := c10_version_layout exRegistry exPacketV2 77 (by decide) (by decide) (by decide)
  exact h.1

/-- C7: for every 9-byte channel record with color payload bytes b3..b8
(each a byte), in RGB mode the dispatched command carries
r = int((b3*256+b4)/256), g = int((b5*256+b6)/256), b = int((b7*256+b8)/256),
each in 0..255, and brightness = int((r+g+b)/3); in XY mode it carries
x = (b3*256+b4)/65535 and y = (b5*256+b6)/65535, each in [0,1], and
brightness = int((b7*256+b8)/256).  In particular payload
(0xFF,0,0,0,0,0x80) decodes in RGB mode to r=255, g=0, b=0, brightness=85,
and payload (0x80,0,0x40,0,0,0xFF) decodes in XY mode to x=32768/65535,
y=16384/65535, brightness=0. -/
theorem c7_color_decode (registry : String → Option LightConf) (conf : LightConf)
    (b0 b1 b2 b3 b4 b5 b6 b7 b8 : Nat)
    (hb3 : b3 ≤ 255) (hb4 : b4 ≤ 255) (hb5 : b5 ≤ 255) (hb6 : b6 ≤ 255)
    (hb7 : b7 ≤ 255) (hb8 : b8 ≤ 255)
    (hres : registry (toString ((b1 <<< 8) ||| b2)) = some conf) :
    processLightPacket registry [b0, b1, b2, b3, b4, b5, b6, b7, b8] COLOR_TYPE_RGB
      = .ok { power := some true,
              rgb := some ((b3 * 256 + b4) / 256, (b5 * 256 + b6) / 256, (b7 * 256 + b8) / 256),
              xy := none,
              brightness := some
                (((b3 * 256 + b4) / 256 + (b5 * 256 + b6) / 256 + (b7 * 256 + b8) / 256) / 3),
              transitionMs := some 0 } ∧
    (b3 * 256 + b4) / 256 ≤ 255 ∧
    (b5 * 256 + b6) / 256 ≤ 255 ∧
    (b7 * 256 + b8) / 256 ≤ 255 ∧
    processLightPacket registry [b0, b1, b2, b3, b4, b5, b6, b7, b8] COLOR_TYPE_XY_BR
      = .ok { power := some true,
              rgb := none,
              xy := some (((b3 * 256 + b4 : Nat) : ℚ) / 65535,
                          ((b5 * 256 + b6 : Nat) : ℚ) / 65535),
              brightness := some ((b7 * 256 + b8) / 256),
              transitionMs := some 0 } ∧
    0 ≤ ((b3 * 256 + b4 : Nat) : ℚ) / 65535 ∧
    ((b3 * 256 + b4 : Nat) : ℚ) / 65535 ≤ 1 ∧
    0 ≤ ((b5 * 256 + b6 : Nat) : ℚ) / 65535 ∧
    ((b5 * 256 + b6 : Nat) : ℚ) / 65535 ≤ 1 ∧
    processLightPacket exRegistry [0, 0, 0, 255, 0, 0, 0, 0, 128] COLOR_TYPE_RGB
      = .ok { power := some true, rgb := some (255, 0, 0), xy := none,
              brightness := some 85, transitionMs := some 0 } ∧
    processLightPacket exRegistry [0, 0, 0, 128, 0, 64, 0, 0, 255] COLOR_TYPE_XY_BR
      = .ok { power := some true, rgb := none,
              xy := some ((32768 : ℚ) / 65535, (16384 : ℚ) / 65535),
              brightness := some 0, transitionMs := some 0 } := by
  have hXY : ∀ (reg : String → Option LightConf) (cf : LightConf)
      (a0 a1 a2 a3 a4 a5 a6 a7 a8 : Nat),
      reg (toString ((a1 <<< 8) ||| a2)) = some cf →
      processLightPacket reg [a0, a1, a2, a3, a4, a5, a6, a7, a8] COLOR_TYPE_XY_BR
        = .ok { power := some true,
                rgb := none,
                xy := some (((a3 * 256 + a4 : Nat) : ℚ) / 65535,
                            ((a5 * 256 + a6 : Nat) : ℚ) / 65535),
                brightness := some ((a7 * 256 + a8) / 256),
                transitionMs := some 0 } := by
    intro reg cf a0 a1 a2 a3 a4 a5 a6 a7 a8 hr
    simp [processLightPacket, pyIndex, asyncGetLightConfig, hr, newControlState,
      COLOR_TYPE_RGB, COLOR_TYPE_XY_BR]
  refine ⟨?_, by omega, by omega, by omega, hXY registry conf b0 b1 b2 b3 b4 b5 b6 b7 b8 hres,
    ?_, ?_, ?_, ?_, ?_, ?_⟩
  · simp [processLightPacket, pyIndex, asyncGetLightConfig, hres, sumRGB, newControlState,
      COLOR_TYPE_RGB]
  · positivity
  · rw [div_le_one (by norm_num)]
    exact_mod_cast (by omega : b3 * 256 + b4 ≤ 65535)
  · positivity
  · rw [div_le_one (by norm_num)]
    exact_mod_cast (by omega : b5 * 256 + b6 ≤ 65535)
  · decide
  · have hr0 : exRegistry (toString (((0 : Nat) <<< 8) ||| 0))
        = some { entity_id := "light.zero" } := by decide
    have h := hXY exRegistry { entity_id := "light.zero" } 0 0 0 128 0 64 0 0 255 hr0
    rw [h]
    norm_num

/-- Witness for C7 at the concrete RGB payload (0xFF,0,0,0,0,0x80) on
channel id 0. -/
theorem c7_color_decode_witness :
    processLightPacket exRegistry [0, 0, 0, 255, 0, 0, 0, 0, 128] COLOR_TYPE_RGB
      = .ok { power := some true, rgb := some (255, 0, 0), xy := none,
              brightness := some 85, transitionMs := some 0 } := by
  have h := c7_color_decode exRegistry { entity_id := "light.zero" } 0 0 0 255 0 0 0 0 128
    (by decide) (by decide) (by decide) (by decide) (by decide) (by decide) (by decide)
  have h1 := h.1
  rw [h1]
